import Mathlib

/-!
Verification development for the adaptive chatter detection engine of
`src/chatter-waveshare-s3` (files `adaptive_chatter.h` and `advanced_dsp.h`).

Floating point values are modelled as exact rationals (or exact reals where the
code evaluates the transcendental function `exp`); machine timestamps
(`millis()`) are modelled as monotone natural numbers; the `uint16_t` histogram
counters wrap modulo 2^16.  Each definition is a direct translation of the
corresponding C++ function; claim theorems follow at the end of the file.
-/

-- ============================================================================
-- DEFINITIONS
-- ============================================================================

/-- State of `RunningStats` (adaptive_chatter.h lines 29-70): count, Welford
mean and sum of squared deviations, running min and max.  `clear()` sets
`minVal = +INFINITY` and `maxVal = -INFINITY`, modelled with `WithTop`/`WithBot`. -/
structure RunningStats where
  n : ℕ
  mean : ℚ
  M2 : ℚ
  minVal : WithTop ℚ
  maxVal : WithBot ℚ
  deriving DecidableEq

/-- A float input sample: either a finite value or one of the non-finite
IEEE values that `isfinite` rejects. -/
inductive FloatVal where
  | finite (x : ℚ)
  | nan
  | posInf
  | negInf
  deriving DecidableEq

/-- `isfinite(x)` from the guard in `RunningStats::push`. -/
def FloatVal.isFinite : FloatVal → Bool
  | .finite _ => true
  | _ => false

/-- `RunningStats::clear()` / the freshly constructed accumulator. -/
def RunningStats.init : RunningStats :=
  { n := 0, mean := 0, M2 := 0, minVal := ⊤, maxVal := ⊥ }

/-- `RunningStats::push(x)` (adaptive_chatter.h lines 39-51): non-finite inputs
are rejected; otherwise count, mean and M2 are updated by Welford's
incremental formula and min/max are refreshed. -/
def RunningStats.push (s : RunningStats) (x : FloatVal) : RunningStats :=
  match x with
  | .finite q =>
      let n' : ℕ := s.n + 1
      let delta : ℚ := q - s.mean
      let mean' : ℚ := s.mean + delta / (n' : ℚ)
      let delta2 : ℚ := q - mean'
      { n := n'
        mean := mean'
        M2 := s.M2 + delta * delta2
        minVal := if (q : WithTop ℚ) < s.minVal then (q : WithTop ℚ) else s.minVal
        maxVal := if s.maxVal < (q : WithBot ℚ) then (q : WithBot ℚ) else s.maxVal }
  | _ => s

/-- `RunningStats::getMean()`: the mean, or 0 when no samples were accepted. -/
def RunningStats.getMean (s : RunningStats) : ℚ :=
  if 0 < s.n then s.mean else 0

/-- `RunningStats::getVariance()`: `M2/(n-1)` for `n > 1`, else 0. -/
def RunningStats.getVariance (s : RunningStats) : ℚ :=
  if 1 < s.n then s.M2 / ((s.n : ℚ) - 1) else 0

/-- Push a whole list of finite samples in order. -/
def RunningStats.pushAll (s : RunningStats) (xs : List ℚ) : RunningStats :=
  xs.foldl (fun t q => t.push (.finite q)) s

section ChatterModel

variable {α : Type} [LinearOrderedField α] [FloorRing α]

/-- C++ `(int)` cast of a float: truncation toward zero. -/
def truncI (x : α) : ℤ := if 0 ≤ x then ⌊x⌋ else ⌈x⌉

/-- `ChatterEvent` (adaptive_chatter.h lines 194-202), field for field. -/
structure ChatterEvent (α : Type) where
  frequency : α
  spindleRPM : α
  feedRate : α
  severity : α
  feedReduction : α
  resolved : Bool
  timestamp : ℕ
  deriving DecidableEq

/-- In-memory state of `ChatterMemory`: the event list and the 100-bin
`uint16_t` frequency histogram (values kept reduced modulo 2^16). -/
structure ChatterMemory (α : Type) where
  events : List (ChatterEvent α)
  hist : Fin 100 → ℕ

/-- A `ChatterMemory` with no events and a zeroed histogram. -/
def ChatterMemory.empty (α : Type) : ChatterMemory α := ⟨[], fun _ => 0⟩

/-- `ChatterMemory::recordEvent` (adaptive_chatter.h lines 213-228): append the
event, evict the oldest (`erase(begin())`) once more than `MAX_EVENTS = 50` are
held, and increment the histogram bin `(int)(frequency / 100)` when that bin
lies in `[0, 100)`.  The write-through `saveToFlash` call is modelled
separately by `ChatterMemory.saveToFlash`. -/
def ChatterMemory.recordEvent (m : ChatterMemory α) (e : ChatterEvent α) :
    ChatterMemory α :=
  let es := m.events ++ [e]
  let es2 := if 50 < es.length then es.tail else es
  let freqBin : ℤ := truncI (e.frequency / 100)
  { events := es2
    hist := fun b => if (b : ℤ) = freqBin then (m.hist b + 1) % 65536 else m.hist b }

/-- `ChatterMemory::markResolved` plus `learnSuccess` (adaptive_chatter.h lines
230-239 and 295-301): mark the most recent event resolved with the given feed
reduction and add 2 to its histogram bin. -/
def ChatterMemory.markResolved (m : ChatterMemory α) (fr : α) : ChatterMemory α :=
  match m.events.getLast? with
  | none => m
  | some e =>
      let e2 : ChatterEvent α := { e with resolved := true, feedReduction := fr }
      let bin : ℤ := truncI (e2.frequency / 100)
      { events := m.events.dropLast ++ [e2]
        hist := fun b => if (b : ℤ) = bin then (m.hist b + 2) % 65536 else m.hist b }

/-- The per-event similarity weight of `ChatterMemory::predictFeedReduction`:
`exp(-(|Δfreq|/500 + |Δrpm|/3000))`.  The `exp` of the target field is a
parameter (instantiated with `Real.exp` over `ℝ`). -/
def ChatterMemory.similarityWeight (exp : α → α) (frequency spindleRPM : α)
    (e : ChatterEvent α) : α :=
  exp (-(|e.frequency - frequency| / 500 + |e.spindleRPM - spindleRPM| / 3000))

/-- The `totalWeight` accumulator of `ChatterMemory::predictFeedReduction`:
sum of the similarity weights of the resolved events. -/
def ChatterMemory.totalWeight (exp : α → α) (m : ChatterMemory α)
    (frequency spindleRPM : α) : α :=
  ((m.events.filter fun e => e.resolved).map
    (ChatterMemory.similarityWeight exp frequency spindleRPM)).sum

/-- The `weightedReduction` accumulator of `ChatterMemory::predictFeedReduction`:
sum of `weight * e.feedReduction` over the resolved events. -/
def ChatterMemory.weightedReduction (exp : α → α) (m : ChatterMemory α)
    (frequency spindleRPM : α) : α :=
  ((m.events.filter fun e => e.resolved).map fun e =>
    ChatterMemory.similarityWeight exp frequency spindleRPM e * e.feedReduction).sum

/-- `ChatterMemory::predictFeedReduction` (adaptive_chatter.h lines 242-262):
the weighted average when `totalWeight > 0.1`, else the default `20.0`. -/
def ChatterMemory.predictFeedReduction (exp : α → α) (m : ChatterMemory α)
    (frequency spindleRPM : α) : α :=
  if 1 / 10 < ChatterMemory.totalWeight exp m frequency spindleRPM then
    ChatterMemory.weightedReduction exp m frequency spindleRPM
      / ChatterMemory.totalWeight exp m frequency spindleRPM
  else 20

/-- Record a whole list of events in order. -/
def ChatterMemory.recordAll (m : ChatterMemory α) (es : List (ChatterEvent α)) :
    ChatterMemory α :=
  es.foldl ChatterMemory.recordEvent m

/-- Modelled from the words of claim C8: a histogram update that increments bin
`⌊frequency/100⌋` — to be compared with the update `recordEvent` performs. -/
def floorHistogramUpdate (h : Fin 100 → ℕ) (frequency : α) : Fin 100 → ℕ :=
  fun b => if (b : ℤ) = ⌊frequency / 100⌋ then h b + 1 else h b

/-- The key/value flash store behind `Preferences` as `ChatterMemory` uses it:
the `"histogram"` blob, the `"eventCount"` integer and the `"evt0"`..`"evt9"`
event records, each possibly absent. -/
structure FlashStore (α : Type) where
  histogram : Option (Fin 100 → ℕ)
  eventCount : Option ℤ
  evt : ℕ → Option (ChatterEvent α)

/-- `ChatterMemory::saveToFlash` (adaptive_chatter.h lines 303-312): write the
histogram and the event count, and store under key `evt i` (for
`i < min(10, count)`) the i-th most recent event; other keys keep their old
contents. -/
def ChatterMemory.saveToFlash (f : FlashStore α) (m : ChatterMemory α) :
    FlashStore α :=
  { histogram := some m.hist
    eventCount := some (m.events.length : ℤ)
    evt := fun i =>
      if i < min 10 m.events.length then m.events[m.events.length - 1 - i]?
      else f.evt i }

/-- `ChatterMemory::loadFromFlash` (adaptive_chatter.h lines 314-326): read the
histogram (a missing key leaves the buffer, i.e. the current histogram,
untouched), read the event count, then push `evt i` for
`i = min(9, count-1)` down to `0`, skipping records that fail to read. -/
def ChatterMemory.loadFromFlash (f : FlashStore α) (m : ChatterMemory α) :
    ChatterMemory α :=
  let cnt : ℤ := f.eventCount.getD 0
  { events := ((List.range (min 10 cnt.toNat)).reverse).filterMap f.evt
    hist := f.histogram.getD m.hist }

/-- Detection states of `AdaptiveChatterDetector` (adaptive_chatter.h 371-377). -/
inductive DState where
  | CALIBRATING
  | MONITORING
  | WARNING
  | CHATTER
  | RECOVERING
  deriving DecidableEq

/-- The fields of `AdaptiveChatterDetector` read or written by `updateState`,
`recordChatterEvent` and `confirmChatterResolved`.  `millis()` timestamps are
monotone naturals, supplied as the `now` argument of `updateState`. -/
structure Detector (α : Type) where
  currentState : DState
  memory : ChatterMemory α
  suggestedFeed : α
  interventionFeed : α
  feedRate : α
  spindleRPM : α
  lastChatterTime : ℕ

/-- `AdaptiveChatterDetector::recordChatterEvent` (adaptive_chatter.h lines
610-622): build an unresolved event from the current detector fields and
record it. -/
def Detector.recordChatterEvent (d : Detector α) (now : ℕ) (freq severity : α) :
    Detector α :=
  { d with
      memory := d.memory.recordEvent
        { frequency := freq, spindleRPM := d.spindleRPM, feedRate := d.feedRate,
          severity := severity, feedReduction := 0, resolved := false,
          timestamp := now } }

/-- `AdaptiveChatterDetector::confirmChatterResolved` (adaptive_chatter.h lines
515-520): mark the most recent event resolved with `100 - interventionFeed`. -/
def Detector.confirmChatterResolved (d : Detector α) : Detector α :=
  { d with memory := d.memory.markResolved (100 - d.interventionFeed) }

/-- `AdaptiveChatterDetector::updateState` (adaptive_chatter.h lines 558-608),
branch for branch.  `score` is the smoothed score the caller passes in;
`now` is the `millis()` reading of this cycle. -/
def Detector.updateState (exp : α → α) (d : Detector α) (now : ℕ)
    (score dominantFreq : α) : Detector α :=
  match d.currentState with
  | .MONITORING =>
      if 70 < score then
        let d1 := d.recordChatterEvent now dominantFreq score
        { d1 with
            currentState := .CHATTER, lastChatterTime := now,
            suggestedFeed :=
              ChatterMemory.predictFeedReduction exp d1.memory dominantFreq d.spindleRPM }
      else if 40 < score then { d with currentState := .WARNING }
      else d
  | .WARNING =>
      if 70 < score then
        let d1 := d.recordChatterEvent now dominantFreq score
        { d1 with
            currentState := .CHATTER, lastChatterTime := now,
            suggestedFeed :=
              ChatterMemory.predictFeedReduction exp d1.memory dominantFreq d.spindleRPM }
      else if score < 30 then { d with currentState := .MONITORING }
      else d
  | .CHATTER =>
      let d1 := { d with interventionFeed := d.feedRate }
      if score < 40 then
        let d2 := { d1 with currentState := .RECOVERING }
        if d1.feedRate < 95 then d2.confirmChatterResolved else d2
      else d1
  | .RECOVERING =>
      if 60 < score then { d with currentState := .CHATTER, lastChatterTime := now }
      else if score < 25 ∧ 5000 < now - d.lastChatterTime then
        { d with currentState := .MONITORING, suggestedFeed := 100 }
      else d
  | .CALIBRATING => d

/-- Run `updateState` over a list of `(now, score, dominantFreq)` inputs. -/
def Detector.run (exp : α → α) (d : Detector α) (inputs : List (ℕ × α × α)) :
    Detector α :=
  inputs.foldl (fun t i => Detector.updateState exp t i.1 i.2.1 i.2.2) d

end ChatterModel

/-- A concrete stand-in for `exp` over `ℚ`, used only to instantiate theorems
whose conclusions do not depend on the values of `exp`. -/
def expQ : ℚ → ℚ := fun _ => 1

/-- A concrete detector sitting in `RECOVERING`. -/
def detRecovering : Detector ℚ :=
  { currentState := .RECOVERING, memory := ChatterMemory.empty ℚ
    suggestedFeed := 50, interventionFeed := 80, feedRate := 80
    spindleRPM := 12000, lastChatterTime := 0 }

/-- A concrete detector sitting in `MONITORING`. -/
def detMonitoring : Detector ℚ :=
  { currentState := .MONITORING, memory := ChatterMemory.empty ℚ
    suggestedFeed := 100, interventionFeed := 100, feedRate := 100
    spindleRPM := 12000, lastChatterTime := 0 }

/-- Modelled from the words of claim C4: below total weight 0.1 the prediction
is the default 20, otherwise ("otherwise" covering total weight exactly 0.1)
it is the weighted average. -/
def predictClaimAt (m : ChatterMemory ℝ) (frequency spindleRPM : ℝ) : Prop :=
  (ChatterMemory.totalWeight Real.exp m frequency spindleRPM < 1 / 10 →
    ChatterMemory.predictFeedReduction Real.exp m frequency spindleRPM = 20) ∧
  (¬(ChatterMemory.totalWeight Real.exp m frequency spindleRPM < 1 / 10) →
    ChatterMemory.predictFeedReduction Real.exp m frequency spindleRPM
      = ChatterMemory.weightedReduction Real.exp m frequency spindleRPM
        / ChatterMemory.totalWeight Real.exp m frequency spindleRPM)

/-- The weighted-fusion block of `AdvancedDSP::analyze` (advanced_dsp.h lines
579-614) computing `r.chatterScore`: sequential accumulation of
`feature * weight` into `score` and of the applied weights into `weights` —
the stability-lobe term only when `toothPassFreq > 10`, the StallGuard term
only when some axis has stall data — then `(score / weights) * 100` guarded by
`weights > 0`. -/
def AdvancedDSP.fusedChatterScore (harmonicStrength spectralNarrowness
    freqStability stabilityLobeMatch stallGuardScore crestScore
    toothPassFreq : ℚ) (hasData : Bool) : ℚ :=
  let score0 : ℚ := 0
  let weights0 : ℚ := 0
  let score1 := score0 + harmonicStrength * 30
  let weights1 := weights0 + 30
  let score2 := score1 + spectralNarrowness * 20
  let weights2 := weights1 + 20
  let score3 := score2 + freqStability * 15
  let weights3 := weights2 + 15
  let score4 := if 10 < toothPassFreq then score3 + stabilityLobeMatch * 20 else score3
  let weights4 := if 10 < toothPassFreq then weights3 + 20 else weights3
  let score5 := if hasData then score4 + stallGuardScore * 25 else score4
  let weights5 := if hasData then weights4 + 25 else weights4
  let score6 := score5 + crestScore * 10
  let weights6 := weights5 + 10
  if 0 < weights6 then score6 / weights6 * 100 else 0

/-- First searched bin of `HarmonicDetector::analyze`: `(int)(500 / binWidth)`
(model assumes `binWidth > 0`, as set by `init`). -/
def HarmonicDetector.searchLow (binWidth : ℚ) : ℕ :=
  (truncI ((500 : ℚ) / binWidth)).toNat

/-- One past the last searched bin: `min(size/2, (int)(8000 / binWidth))`. -/
def HarmonicDetector.searchHigh (size : ℕ) (binWidth : ℚ) : ℕ :=
  min (size / 2) (truncI ((8000 : ℚ) / binWidth)).toNat

/-- The bin indices the peak search of `HarmonicDetector::analyze` visits:
`minBin ≤ i < maxSearchBin`. -/
def HarmonicDetector.searchBins (size : ℕ) (binWidth : ℚ) : List ℕ :=
  List.range' (HarmonicDetector.searchLow binWidth)
    (HarmonicDetector.searchHigh size binWidth - HarmonicDetector.searchLow binWidth)

/-- The peak search of `HarmonicDetector::analyze` (advanced_dsp.h lines
104-114): `(maxMag, maxBin)` starting from `(0, 0)`, updated on strictly
larger magnitudes.  Out-of-range reads yield 0 (the untouched buffer). -/
def HarmonicDetector.findPeak (mags : List ℚ) (size : ℕ) (binWidth : ℚ) : ℚ × ℕ :=
  (HarmonicDetector.searchBins size binWidth).foldl
    (fun p i => if mags.getD i 0 > p.1 then (mags.getD i 0, i) else p) (0, 0)

/-- The local-maximum scan around an expected harmonic bin `hb`:
`j` from `max(0, hb-3)` to `min(size/2 - 1, hb+3)` inclusive (advanced_dsp.h
lines 131-135). -/
def HarmonicDetector.localMax (mags : List ℚ) (size : ℕ) (hb : ℕ) : ℚ :=
  (List.range' (hb - 3) (min (size / 2 - 1) (hb + 3) + 1 - (hb - 3))).foldl
    (fun acc j => if mags.getD j 0 > acc then mags.getD j 0 else acc) 0

/-- One harmonic's contribution to `harmonicScore`: `localMax / maxMag` when
`localMax > 0.2 * maxMag`, else nothing (the unused `harmonicsFound` counter
is not modelled). -/
def HarmonicDetector.harmContrib (mags : List ℚ) (size : ℕ) (maxMag : ℚ)
    (maxBin h : ℕ) : ℚ :=
  if maxMag * (1 / 5) < HarmonicDetector.localMax mags size (maxBin * h) then
    HarmonicDetector.localMax mags size (maxBin * h) / maxMag
  else 0

/-- The harmonic loop over `h = 2, 3, 4` with its `break` when
`maxBin * h ≥ size/2` (advanced_dsp.h lines 127-142). -/
def HarmonicDetector.harmScoreSum (mags : List ℚ) (size : ℕ) (maxMag : ℚ)
    (maxBin : ℕ) : ℚ :=
  if size / 2 ≤ maxBin * 2 then 0
  else HarmonicDetector.harmContrib mags size maxMag maxBin 2
    + (if size / 2 ≤ maxBin * 3 then 0
       else HarmonicDetector.harmContrib mags size maxMag maxBin 3
         + (if size / 2 ≤ maxBin * 4 then 0
            else HarmonicDetector.harmContrib mags size maxMag maxBin 4))

/-- `HarmonicDetector::analyze` (advanced_dsp.h lines 102-146), returning
`(harmonic strength, fundamental)`: when the strongest searched bin is below
magnitude 100 both are 0; otherwise the fundamental is `maxBin * binWidth`
and the strength is `min(1, harmonicScore / 2)`. -/
def HarmonicDetector.analyze (mags : List ℚ) (size : ℕ) (binWidth : ℚ) : ℚ × ℚ :=
  let p := HarmonicDetector.findPeak mags size binWidth
  if p.1 < 100 then (0, 0)
  else (min 1 (HarmonicDetector.harmScoreSum mags size p.1 p.2 / 2),
    (p.2 : ℚ) * binWidth)

/-- `AdvancedResult.dominantFreq` as `AdvancedDSP::analyze` sets it
(advanced_dsp.h lines 558-561): the fundamental returned by the harmonic
detector. -/
def AdvancedDSP.dominantFreqOf (mags : List ℚ) (size : ℕ) (binWidth : ℚ) : ℚ :=
  (HarmonicDetector.analyze mags size binWidth).2

-- ============================================================================
-- THEOREMS
-- ============================================================================

theorem pushAll_append_singleton (s : RunningStats) (xs : List ℚ) (x : ℚ) :
    s.pushAll (xs ++ [x]) = (s.pushAll xs).push (.finite x) := by
  simp [RunningStats.pushAll, List.foldl_append]

theorem sum_sq_shift (xs : List ℚ) (a b : ℚ) :
    (xs.map fun x => (x - b) ^ 2).sum
      = (xs.map fun x => (x - a) ^ 2).sum
        + 2 * (a - b) * (xs.sum - xs.length * a)
        + xs.length * (a - b) ^ 2 := by
  induction xs with
  | nil => simp
  | cons y ys ih =>
      simp only [List.map_cons, List.sum_cons, List.length_cons, ih]
      push_cast
      ring

theorem pushAll_closed_form (xs : List ℚ) :
    (RunningStats.init.pushAll xs).n = xs.length ∧
    (RunningStats.init.pushAll xs).mean = xs.sum / (xs.length : ℚ) ∧
    (RunningStats.init.pushAll xs).M2
      = (xs.map fun x => (x - xs.sum / (xs.length : ℚ)) ^ 2).sum := by
  induction xs using List.reverseRecOn with
  | nil => simp [RunningStats.pushAll, RunningStats.init]
  | append_singleton ys y ih =>
      obtain ⟨hn, hm, hM⟩ := ih
      rw [pushAll_append_singleton]
      rcases eq_or_ne ys [] with rfl | hne
      · simp [RunningStats.pushAll, RunningStats.init, RunningStats.push]
      · have hlen : ys.length ≠ 0 := by
          simpa [List.length_eq_zero] using hne
        have hn0 : (ys.length : ℚ) ≠ 0 := Nat.cast_ne_zero.mpr hlen
        have hn1 : ((ys.length : ℚ) + 1) ≠ 0 := by positivity
        refine ⟨?_, ?_, ?_⟩
        · simp [RunningStats.push, hn]
        · simp only [RunningStats.push, hn, hm, List.sum_append, List.length_append,
            List.sum_cons, List.sum_nil, List.length_cons, List.length_nil]
          push_cast
          field_simp
          ring
        · simp only [RunningStats.push, hn, hm, hM, List.map_append, List.sum_append,
            List.length_append, List.map_cons, List.map_nil, List.sum_cons,
            List.sum_nil, List.length_cons, List.length_nil, add_zero, zero_add,
            Nat.cast_add, Nat.cast_one]
          rw [sum_sq_shift ys (ys.sum / (ys.length : ℚ))
            ((ys.sum + y) / ((ys.length : ℚ) + 1))]
          have hzero : ys.sum - (ys.length : ℚ) * (ys.sum / (ys.length : ℚ)) = 0 := by
            field_simp
          rw [hzero]
          field_simp
          ring

/-- C6: for every finite sequence of pushed samples, the single-pass Welford
accumulator agrees with the two-pass reference: `getMean` is the arithmetic
mean and `getVariance` is `Σ(x − mean)²/(n−1)` for `n > 1` and `0` for `n ≤ 1`. -/
theorem runningStats_welford_two_pass (xs : List ℚ) :
    (RunningStats.init.pushAll xs).getMean = xs.sum / (xs.length : ℚ) ∧
    (RunningStats.init.pushAll xs).getVariance
      = if 1 < xs.length then
          (xs.map fun x => (x - xs.sum / (xs.length : ℚ)) ^ 2).sum / ((xs.length : ℚ) - 1)
        else 0 := by
  obtain ⟨hn, hm, hM⟩ := pushAll_closed_form xs
  constructor
  · rw [RunningStats.getMean, hn]
    rcases Nat.eq_zero_or_pos xs.length with h0 | hpos
    · rw [h0]
      simp [List.length_eq_zero.mp h0]
    · rw [if_pos hpos, hm]
  · rw [RunningStats.getVariance, hn, hM]

/-- C9: pushing any non-finite input (NaN, +Inf, −Inf) leaves the entire
`RunningStats` state — count, mean, M2 (hence variance and standard
deviation), min and max — unchanged. -/
theorem push_nonfinite_identity (s : RunningStats) (x : FloatVal)
    (hx : x.isFinite = false) : s.push x = s := by
  cases x with
  | finite q => simp [FloatVal.isFinite] at hx
  | nan => rfl
  | posInf => rfl
  | negInf => rfl

theorem push_nonfinite_identity_witness :
    RunningStats.init.push FloatVal.nan = RunningStats.init :=
  push_nonfinite_identity RunningStats.init FloatVal.nan rfl

theorem filterMap_reverse_range_getElem {γ : Type} (l : List γ) (k : ℕ)
    (hk : k ≤ l.length) :
    ((List.range k).reverse).filterMap (fun i => l[l.length - 1 - i]?)
      = l.drop (l.length - k) := by
  induction k with
  | zero => simp
  | succ j ih =>
      have hj : j ≤ l.length := Nat.le_of_succ_le hk
      have hidx : l.length - 1 - j < l.length := by omega
      rw [List.range_succ, List.reverse_append]
      simp only [List.reverse_singleton, List.singleton_append, List.filterMap_cons,
        List.getElem?_eq_getElem hidx, ih hj]
      have hdrop : l.drop (l.length - (j + 1))
          = l[l.length - 1 - j] :: l.drop (l.length - j) := by
        have e1 : l.length - (j + 1) = l.length - 1 - j := by omega
        have e2 : (l.length - 1 - j) + 1 = l.length - j := by omega
        rw [e1, List.drop_eq_getElem_cons hidx, e2]
      rw [hdrop]

/-- C7: saving then loading round-trips the learning state: the histogram is
unchanged and the restored event list is exactly the `min(10, count)` most
recently recorded events in their original insertion order (older events are
not restored). -/
theorem persistence_round_trip (f : FlashStore ℚ) (m m0 : ChatterMemory ℚ) :
    (ChatterMemory.loadFromFlash (ChatterMemory.saveToFlash f m) m0).hist = m.hist ∧
    (ChatterMemory.loadFromFlash (ChatterMemory.saveToFlash f m) m0).events
      = m.events.drop (m.events.length - 10) := by
  constructor
  · simp [ChatterMemory.loadFromFlash, ChatterMemory.saveToFlash]
  · simp only [ChatterMemory.loadFromFlash, ChatterMemory.saveToFlash,
      Option.getD_some, Int.toNat_natCast]
    have hagree : ∀ i ∈ (List.range (min 10 m.events.length)).reverse,
        (if i < min 10 m.events.length then m.events[m.events.length - 1 - i]?
          else f.evt i)
          = m.events[m.events.length - 1 - i]? := by
      intro i hi
      rw [List.mem_reverse, List.mem_range] at hi
      exact if_pos hi
    rw [List.filterMap_congr hagree,
      filterMap_reverse_range_getElem m.events (min 10 m.events.length)
        (min_le_right _ _)]
    congr 1
    omega

theorem recordAll_empty_events (es : List (ChatterEvent ℚ)) :
    ((ChatterMemory.empty ℚ).recordAll es).events = es.drop (es.length - 50) := by
  induction es using List.reverseRecOn with
  | nil => simp [ChatterMemory.recordAll, ChatterMemory.empty]
  | append_singleton ys y ih =>
      have hfold : (ChatterMemory.empty ℚ).recordAll (ys ++ [y])
          = ((ChatterMemory.empty ℚ).recordAll ys).recordEvent y := by
        simp [ChatterMemory.recordAll, List.foldl_append]
      rw [hfold]
      rcases le_or_lt ys.length 49 with hle | hgt
      · have hih : ((ChatterMemory.empty ℚ).recordAll ys).events = ys := by
          rw [ih, Nat.sub_eq_zero_of_le (by omega), List.drop_zero]
        simp only [ChatterMemory.recordEvent, hih]
        rw [if_neg (by rw [List.length_append]; simp; omega)]
        rw [show (ys ++ [y]).length - 50 = 0 from by simp; omega, List.drop_zero]
      · have hihlen : ((ChatterMemory.empty ℚ).recordAll ys).events.length = 50 := by
          rw [ih, List.length_drop]; omega
        simp only [ChatterMemory.recordEvent]
        rw [if_pos (by rw [List.length_append, hihlen]; simp)]
        rw [ih]
        have hne : ys.drop (ys.length - 50) ≠ [] := by
          intro hc
          have hlen := congrArg List.length hc
          simp only [List.length_drop, List.length_nil] at hlen
          omega
        rw [List.tail_append_singleton_of_ne_nil hne, List.tail_drop]
        have hidx : (ys ++ [y]).length - 50 = (ys.length - 50) + 1 := by
          simp; omega
        rw [hidx, List.drop_append_of_le_length (by omega)]

/-- C8 counterexample: at frequency `-50` the code increments histogram bin
`trunc(-50/100) = 0`, whereas the claim's `floor(-50/100) = -1` names no bin
at all, so the claimed histogram update differs from the one performed. -/
theorem recordEvent_histogram_counterexample :
    ((ChatterMemory.empty ℚ).recordEvent
        ⟨-50, 0, 0, 0, 0, false, 0⟩).hist 0
      ≠ floorHistogramUpdate (ChatterMemory.empty ℚ).hist (-50 : ℚ) 0 := by
  have hL : ((ChatterMemory.empty ℚ).recordEvent
      (⟨-50, 0, 0, 0, 0, false, 0⟩ : ChatterEvent ℚ)).hist 0 = 1 := by
    simp only [ChatterMemory.recordEvent, ChatterMemory.empty]
    rw [if_pos]
    rw [truncI, if_neg (by norm_num)]
    have hceil : ⌈(-50 : ℚ) / 100⌉ = 0 := by
      rw [Int.ceil_eq_iff]
      constructor <;> norm_num
    rw [hceil]
    simp
  have hR : floorHistogramUpdate (ChatterMemory.empty ℚ).hist (-50 : ℚ) 0 = 0 := by
    rw [floorHistogramUpdate]
    have hfloor : ⌊(-50 : ℚ) / 100⌋ = -1 := by
      rw [Int.floor_eq_iff]
      constructor <;> norm_num
    rw [hfloor, if_neg (by norm_num), ChatterMemory.empty]
  rw [hL, hR]
  norm_num

/-- C8 (amended): `recordEvent` appends the event and evicts the oldest
whenever the stored count would exceed 50; the histogram bin incremented
(modulo 2^16) is `trunc(frequency/100)` — equal to `floor(frequency/100)` for
frequencies in `[0, 10000)` — and no bin changes when that value lies outside
`[0, 100)`; after 51 recorded events exactly 50 remain and the first-inserted
event is gone, and the event count never exceeds 50. -/
theorem recordEvent_characterization (m : ChatterMemory ℚ) (e : ChatterEvent ℚ)
    (es : List (ChatterEvent ℚ)) :
    (∀ b : Fin 100, (m.recordEvent e).hist b
        = if (b : ℤ) = truncI (e.frequency / 100) then (m.hist b + 1) % 65536
          else m.hist b) ∧
    (m.events.length ≤ 50 → (m.recordEvent e).events.length ≤ 50) ∧
    (es.length = 51 →
      ((ChatterMemory.empty ℚ).recordAll es).events = es.tail ∧
      ((ChatterMemory.empty ℚ).recordAll es).events.length = 50) := by
  refine ⟨fun b => rfl, ?_, ?_⟩
  · intro hle
    simp only [ChatterMemory.recordEvent]
    split
    · rw [List.length_tail, List.length_append]
      simp
      omega
    · rename_i hnot
      rw [List.length_append] at hnot ⊢
      simp only [List.length_cons, List.length_nil] at hnot ⊢
      omega
  · intro h51
    have hev := recordAll_empty_events es
    rw [h51] at hev
    norm_num at hev
    refine ⟨hev, ?_⟩
    rw [hev, List.length_tail, h51]

theorem recordEvent_characterization_witness :
    ((ChatterMemory.empty ℚ).recordEvent ⟨1000, 0, 0, 0, 0, false, 0⟩).events.length ≤ 50
    ∧ ((ChatterMemory.empty ℚ).recordAll
        (List.replicate 51 (⟨1000, 0, 0, 0, 0, false, 0⟩ : ChatterEvent ℚ))).events.length
        = 50 :=
  ⟨(recordEvent_characterization (ChatterMemory.empty ℚ) ⟨1000, 0, 0, 0, 0, false, 0⟩
      (List.replicate 51 ⟨1000, 0, 0, 0, 0, false, 0⟩)).2.1 (by decide),
   ((recordEvent_characterization (ChatterMemory.empty ℚ) ⟨1000, 0, 0, 0, 0, false, 0⟩
      (List.replicate 51 ⟨1000, 0, 0, 0, 0, false, 0⟩)).2.2 (by simp)).2⟩

/-- C4 (amended): `predictFeedReduction` returns the default 20 whenever the
total similarity weight is at most 0.1 (hence for zero resolved events), and
the weighted average of the resolved events' feed reductions when the total
weight strictly exceeds 0.1; a single resolved event queried at its own
frequency and RPM has weight `exp 0 = 1` and returns its own feed reduction. -/
theorem predictFeedReduction_characterization (m : ChatterMemory ℝ)
    (frequency spindleRPM : ℝ) :
    (ChatterMemory.totalWeight Real.exp m frequency spindleRPM ≤ 1 / 10 →
      ChatterMemory.predictFeedReduction Real.exp m frequency spindleRPM = 20) ∧
    (1 / 10 < ChatterMemory.totalWeight Real.exp m frequency spindleRPM →
      ChatterMemory.predictFeedReduction Real.exp m frequency spindleRPM
        = ChatterMemory.weightedReduction Real.exp m frequency spindleRPM
          / ChatterMemory.totalWeight Real.exp m frequency spindleRPM) ∧
    (∀ e : ChatterEvent ℝ, e.resolved = true →
      ChatterMemory.predictFeedReduction Real.exp ⟨[e], fun _ => 0⟩
          e.frequency e.spindleRPM = e.feedReduction) := by
  refine ⟨?_, ?_, ?_⟩
  · intro hle
    rw [ChatterMemory.predictFeedReduction, if_neg (not_lt.mpr hle)]
  · intro hlt
    rw [ChatterMemory.predictFeedReduction, if_pos hlt]
  · intro e he
    have hw : ChatterMemory.totalWeight Real.exp ⟨[e], fun _ => 0⟩
        e.frequency e.spindleRPM = 1 := by
      simp [ChatterMemory.totalWeight, ChatterMemory.similarityWeight, he,
        List.filter, Real.exp_zero]
    have hwr : ChatterMemory.weightedReduction Real.exp ⟨[e], fun _ => 0⟩
        e.frequency e.spindleRPM = e.feedReduction := by
      simp [ChatterMemory.weightedReduction, ChatterMemory.similarityWeight, he,
        List.filter, Real.exp_zero]
    rw [ChatterMemory.predictFeedReduction, hw, hwr, if_pos (by norm_num), div_one]

theorem predictFeedReduction_characterization_witness :
    ChatterMemory.predictFeedReduction Real.exp (ChatterMemory.empty ℝ) 0 0 = 20 :=
  (predictFeedReduction_characterization (ChatterMemory.empty ℝ) 0 0).1 (by
    norm_num [ChatterMemory.totalWeight, ChatterMemory.empty])

/-- C4 counterexample: one resolved event at frequency `500·ln 10`, RPM 0 and
feed reduction 30, queried at `(0, 0)`, has total weight exactly
`exp(−ln 10) = 0.1`.  The code returns the default 20 (its test is the strict
`totalWeight > 0.1`), while the claim's "otherwise the weighted average"
branch demands 30. -/
theorem predict_boundary_counterexample :
    ¬ predictClaimAt ⟨[⟨500 * Real.log 10, 0, 0, 0, 30, true, 0⟩], fun _ => 0⟩ 0 0 := by
  have hlog : (0 : ℝ) ≤ 500 * Real.log 10 :=
    mul_nonneg (by norm_num) (Real.log_nonneg (by norm_num))
  have hsim : ChatterMemory.similarityWeight Real.exp 0 0
      (⟨500 * Real.log 10, 0, 0, 0, 30, true, 0⟩ : ChatterEvent ℝ) = 1 / 10 := by
    rw [ChatterMemory.similarityWeight]
    norm_num
    rw [abs_of_nonneg hlog,
      show (500 : ℝ) * Real.log 10 / 500 = Real.log 10 from by ring,
      Real.exp_neg, Real.exp_log (by norm_num : (0 : ℝ) < 10)]
    norm_num
  have hw : ChatterMemory.totalWeight Real.exp
      ⟨[⟨500 * Real.log 10, 0, 0, 0, 30, true, 0⟩], fun _ => 0⟩ 0 0 = 1 / 10 := by
    simp [ChatterMemory.totalWeight, List.filter, hsim]
  have hwr : ChatterMemory.weightedReduction Real.exp
      ⟨[⟨500 * Real.log 10, 0, 0, 0, 30, true, 0⟩], fun _ => 0⟩ 0 0 = 3 := by
    simp [ChatterMemory.weightedReduction, List.filter, hsim]
    norm_num
  intro hcl
  have hnot : ¬ (ChatterMemory.totalWeight Real.exp
      ⟨[⟨500 * Real.log 10, 0, 0, 0, 30, true, 0⟩], fun _ => 0⟩ 0 0 < 1 / 10) := by
    rw [hw]
    exact lt_irrefl _
  have h2 := hcl.2 hnot
  rw [ChatterMemory.predictFeedReduction, if_neg (by rw [hw]; exact lt_irrefl _),
    hw, hwr] at h2
  norm_num at h2

/-- C1 counterexample: from `RECOVERING` with score 61 the state re-enters
`CHATTER`, but NO new chatter event is recorded — the event list is unchanged,
against the claimed fresh event. -/
theorem recovering_retrigger_counterexample :
    (Detector.updateState expQ detRecovering 7 61 1000).currentState = DState.CHATTER
    ∧ ¬ ((Detector.updateState expQ detRecovering 7 61 1000).memory.events.length
          = detRecovering.memory.events.length + 1) := by
  constructor
  · rfl
  · decide

/-- C1 (amended): from `RECOVERING`, a score above 60 re-enters `CHATTER` and
refreshes `lastChatterTime`, but — unlike `MONITORING`/`WARNING` entry into
`CHATTER` — records no new event: the `ChatterMemory` and the suggested feed
are unchanged. -/
theorem recovering_retrigger_no_event {α : Type} [LinearOrderedField α]
    [FloorRing α] (exp : α → α) (d : Detector α) (now : ℕ) (score dominantFreq : α)
    (hst : d.currentState = DState.RECOVERING) (hsc : 60 < score) :
    (Detector.updateState exp d now score dominantFreq).currentState = DState.CHATTER
    ∧ (Detector.updateState exp d now score dominantFreq).lastChatterTime = now
    ∧ (Detector.updateState exp d now score dominantFreq).memory = d.memory
    ∧ (Detector.updateState exp d now score dominantFreq).suggestedFeed
        = d.suggestedFeed := by
  simp only [Detector.updateState, hst, if_pos hsc]
  simp

theorem recovering_retrigger_no_event_witness :
    (Detector.updateState expQ detRecovering 3 75 900).currentState = DState.CHATTER
    ∧ (Detector.updateState expQ detRecovering 3 75 900).lastChatterTime = 3
    ∧ (Detector.updateState expQ detRecovering 3 75 900).memory = detRecovering.memory
    ∧ (Detector.updateState expQ detRecovering 3 75 900).suggestedFeed
        = detRecovering.suggestedFeed :=
  recovering_retrigger_no_event expQ detRecovering 3 75 900 rfl (by norm_num)

/-- C2 counterexample: with score 10 < 25 and exactly 5000 ms elapsed since the
last chatter entry, the detector stays in `RECOVERING` — the code requires
STRICTLY more than 5000 ms, so the claimed transition at exactly 5000 ms does
not happen. -/
theorem recovering_timeout_boundary_counterexample :
    (10 : ℚ) < 25
    ∧ (5000 : ℕ) - detRecovering.lastChatterTime = 5000
    ∧ (Detector.updateState expQ detRecovering 5000 10 800).currentState
        = DState.RECOVERING := by
  refine ⟨by norm_num, rfl, ?_⟩
  decide

/-- C2 (amended): from `RECOVERING`, an update transitions to `MONITORING` iff
the score is below 25 AND strictly more than 5000 ms have elapsed since the
last chatter entry (so the transition occurs at 5001 ms elapsed, and happens
neither at 4999 ms nor at exactly 5000 ms); on that transition the suggested
feed is reset to 100. -/
theorem recovering_to_monitoring_iff {α : Type} [LinearOrderedField α]
    [FloorRing α] (exp : α → α) (d : Detector α) (now : ℕ) (score dominantFreq : α)
    (hst : d.currentState = DState.RECOVERING) :
    ((Detector.updateState exp d now score dominantFreq).currentState
        = DState.MONITORING
      ↔ (score < 25 ∧ 5000 < now - d.lastChatterTime))
    ∧ (score < 25 → 5000 < now - d.lastChatterTime →
        (Detector.updateState exp d now score dominantFreq).suggestedFeed = 100) := by
  simp only [Detector.updateState, hst]
  constructor
  · constructor
    · intro h
      by_cases h60 : 60 < score
      · rw [if_pos h60] at h
        simp at h
      · rw [if_neg h60] at h
        by_cases hc : score < 25 ∧ 5000 < now - d.lastChatterTime
        · exact hc
        · rw [if_neg hc] at h
          rw [hst] at h
          simp at h
    · intro hc
      have h60 : ¬ 60 < score := not_lt.mpr (hc.1.le.trans (by norm_num))
      rw [if_neg h60, if_pos hc]
  · intro h25 htime
    have h60 : ¬ 60 < score := not_lt.mpr (h25.le.trans (by norm_num))
    rw [if_neg h60, if_pos ⟨h25, htime⟩]

theorem recovering_to_monitoring_iff_witness :
    (Detector.updateState expQ detRecovering 5001 10 800).currentState
      = DState.MONITORING
    ∧ (Detector.updateState expQ detRecovering 5001 10 800).suggestedFeed = 100 :=
  ⟨(recovering_to_monitoring_iff expQ detRecovering 5001 10 800 rfl).1.mpr
      ⟨by norm_num, by decide⟩,
   (recovering_to_monitoring_iff expQ detRecovering 5001 10 800 rfl).2
      (by norm_num) (by decide)⟩

theorem run_cons (exp : ℚ → ℚ) (d : Detector ℚ) (t : ℕ × ℚ × ℚ)
    (ts : List (ℕ × ℚ × ℚ)) :
    Detector.run exp d (t :: ts)
      = Detector.run exp (Detector.updateState exp d t.1 t.2.1 t.2.2) ts := rfl

theorem step_mw (exp : ℚ → ℚ) (d : Detector ℚ) (now : ℕ) (score f : ℚ)
    (hd : d.currentState = DState.MONITORING ∨ d.currentState = DState.WARNING)
    (hs : score ≤ 70) :
    ((Detector.updateState exp d now score f).currentState = DState.MONITORING
      ∨ (Detector.updateState exp d now score f).currentState = DState.WARNING)
    ∧ (Detector.updateState exp d now score f).memory = d.memory
    ∧ (Detector.updateState exp d now score f).suggestedFeed = d.suggestedFeed
    ∧ (Detector.updateState exp d now score f).spindleRPM = d.spindleRPM
    ∧ (Detector.updateState exp d now score f).feedRate = d.feedRate := by
  have h70 : ¬ 70 < score := not_lt.mpr hs
  rcases hd with h | h
  · simp only [Detector.updateState, h, if_neg h70]
    split_ifs with h40
    · exact ⟨Or.inr rfl, rfl, rfl, rfl, rfl⟩
    · exact ⟨Or.inl h, rfl, rfl, rfl, rfl⟩
  · simp only [Detector.updateState, h, if_neg h70]
    split_ifs with h30
    · exact ⟨Or.inl rfl, rfl, rfl, rfl, rfl⟩
    · exact ⟨Or.inr h, rfl, rfl, rfl, rfl⟩

theorem run_mw_invariant (exp : ℚ → ℚ) (d : Detector ℚ)
    (inputs : List (ℕ × ℚ × ℚ))
    (hd : d.currentState = DState.MONITORING ∨ d.currentState = DState.WARNING)
    (hall : ∀ t ∈ inputs, t.2.1 ≤ 70) :
    ((Detector.run exp d inputs).currentState = DState.MONITORING
      ∨ (Detector.run exp d inputs).currentState = DState.WARNING)
    ∧ (Detector.run exp d inputs).memory = d.memory
    ∧ (Detector.run exp d inputs).suggestedFeed = d.suggestedFeed
    ∧ (Detector.run exp d inputs).spindleRPM = d.spindleRPM
    ∧ (Detector.run exp d inputs).feedRate = d.feedRate := by
  induction inputs generalizing d with
  | nil => exact ⟨hd, rfl, rfl, rfl, rfl⟩
  | cons t ts ih =>
      have hs : t.2.1 ≤ 70 := hall t (List.mem_cons_self t ts)
      have hstep := step_mw exp d t.1 t.2.1 t.2.2 hd hs
      have hrest := ih (Detector.updateState exp d t.1 t.2.1 t.2.2) hstep.1
        (fun u hu => hall u (List.mem_cons_of_mem t hu))
      rw [run_cons]
      exact ⟨hrest.1,
        hrest.2.1.trans hstep.2.1,
        hrest.2.2.1.trans hstep.2.2.1,
        hrest.2.2.2.1.trans hstep.2.2.2.1,
        hrest.2.2.2.2.trans hstep.2.2.2.2⟩

theorem run_mon_invariant (exp : ℚ → ℚ) (d : Detector ℚ)
    (inputs : List (ℕ × ℚ × ℚ)) (hd : d.currentState = DState.MONITORING)
    (hall : ∀ t ∈ inputs, t.2.1 ≤ 40) :
    (Detector.run exp d inputs).currentState = DState.MONITORING := by
  induction inputs generalizing d with
  | nil => exact hd
  | cons t ts ih =>
      rw [run_cons]
      refine ih _ ?_ (fun u hu => hall u (List.mem_cons_of_mem t hu))
      have hs : t.2.1 ≤ 40 := hall t (List.mem_cons_self t ts)
      have h70 : ¬ 70 < t.2.1 := not_lt.mpr (hs.trans (by norm_num))
      have h40 : ¬ 40 < t.2.1 := not_lt.mpr hs
      simp only [Detector.updateState, hd, if_neg h70, if_neg h40]

theorem step_chatter_entry (exp : ℚ → ℚ) (d : Detector ℚ) (now : ℕ) (score f : ℚ)
    (hd : d.currentState = DState.MONITORING ∨ d.currentState = DState.WARNING)
    (hs : 70 < score) :
    (Detector.updateState exp d now score f).currentState = DState.CHATTER
    ∧ (Detector.updateState exp d now score f).memory
        = d.memory.recordEvent ⟨f, d.spindleRPM, d.feedRate, score, 0, false, now⟩
    ∧ (Detector.updateState exp d now score f).suggestedFeed
        = ChatterMemory.predictFeedReduction exp
            (d.memory.recordEvent ⟨f, d.spindleRPM, d.feedRate, score, 0, false, now⟩)
            f d.spindleRPM
    ∧ (Detector.updateState exp d now score f).lastChatterTime = now := by
  rcases hd with h | h <;>
    simp only [Detector.updateState, h, if_pos hs, Detector.recordChatterEvent] <;>
    try simp

theorem run_take_succ (exp : ℚ → ℚ) (d : Detector ℚ)
    (inputs : List (ℕ × ℚ × ℚ)) (k : ℕ) (hk : k < inputs.length) :
    Detector.run exp d (inputs.take (k+1))
      = Detector.updateState exp (Detector.run exp d (inputs.take k))
          (inputs.get ⟨k, hk⟩).1 (inputs.get ⟨k, hk⟩).2.1 (inputs.get ⟨k, hk⟩).2.2 := by
  rw [List.take_succ, List.getElem?_eq_getElem hk]
  rw [Option.toList_some, Detector.run, List.foldl_append, List.foldl_cons,
    List.foldl_nil]
  rfl

/-- C3 counterexample: from `MONITORING`, a monotone score sequence whose first
update already exceeds 70 (score 80) enters `CHATTER` directly — it does not
enter `WARNING` on the first update whose score exceeds 40, as claimed. -/
theorem monitoring_direct_jump_counterexample :
    (Detector.run expQ detMonitoring [(0, 80, 1500)]).currentState = DState.CHATTER
    ∧ (Detector.run expQ detMonitoring [(0, 80, 1500)]).currentState
        ≠ DState.WARNING := by
  constructor
  · rfl
  · decide

/-- C3 (amended): starting in `MONITORING` under any (monotone) score
sequence: while all scores are ≤ 70 the detector never reaches `CHATTER` and
the memory is untouched; at the first score above 70 it enters `CHATTER`,
records an event carrying the dominant frequency and score, and computes the
suggested feed via `predictFeedReduction` on the post-record memory; while all
scores are ≤ 40 it stays in `MONITORING`; at the first score above 40 it
enters `WARNING` provided that score is also ≤ 70 (a score already above 70
enters `CHATTER` directly instead). -/
theorem monitoring_warning_chatter_first_crossing (exp : ℚ → ℚ)
    (d0 : Detector ℚ) (inputs : List (ℕ × ℚ × ℚ)) (k : ℕ)
    (_hmon : List.Chain' (· ≤ ·) (inputs.map fun t => t.2.1))
    (hst : d0.currentState = DState.MONITORING) :
    ((∀ t ∈ inputs.take k, t.2.1 ≤ 70) →
       ((Detector.run exp d0 (inputs.take k)).currentState ≠ DState.CHATTER
        ∧ (Detector.run exp d0 (inputs.take k)).memory = d0.memory))
    ∧ (∀ (hk : k < inputs.length), (∀ t ∈ inputs.take k, t.2.1 ≤ 70) →
        70 < (inputs.get ⟨k, hk⟩).2.1 →
        ((Detector.run exp d0 (inputs.take (k+1))).currentState = DState.CHATTER
         ∧ (Detector.run exp d0 (inputs.take (k+1))).memory
             = d0.memory.recordEvent
                 ⟨(inputs.get ⟨k, hk⟩).2.2, d0.spindleRPM, d0.feedRate,
                  (inputs.get ⟨k, hk⟩).2.1, 0, false, (inputs.get ⟨k, hk⟩).1⟩
         ∧ (Detector.run exp d0 (inputs.take (k+1))).suggestedFeed
             = ChatterMemory.predictFeedReduction exp
                 (d0.memory.recordEvent
                   ⟨(inputs.get ⟨k, hk⟩).2.2, d0.spindleRPM, d0.feedRate,
                    (inputs.get ⟨k, hk⟩).2.1, 0, false, (inputs.get ⟨k, hk⟩).1⟩)
                 (inputs.get ⟨k, hk⟩).2.2 d0.spindleRPM))
    ∧ ((∀ t ∈ inputs.take k, t.2.1 ≤ 40) →
        (Detector.run exp d0 (inputs.take k)).currentState = DState.MONITORING)
    ∧ (∀ (hk : k < inputs.length), (∀ t ∈ inputs.take k, t.2.1 ≤ 40) →
        40 < (inputs.get ⟨k, hk⟩).2.1 → (inputs.get ⟨k, hk⟩).2.1 ≤ 70 →
        (Detector.run exp d0 (inputs.take (k+1))).currentState = DState.WARNING) := by
  refine ⟨?_, ?_, ?_, ?_⟩
  · intro hall
    have hinv := run_mw_invariant exp d0 (inputs.take k) (Or.inl hst) hall
    refine ⟨?_, hinv.2.1⟩
    rcases hinv.1 with h | h <;> rw [h] <;> simp
  · intro hk hall hgt
    have hinv := run_mw_invariant exp d0 (inputs.take k) (Or.inl hst) hall
    obtain ⟨hmw, hmem, _hsug, hrpm, hfeed⟩ := hinv
    rw [run_take_succ exp d0 inputs k hk]
    have hstep := step_chatter_entry exp (Detector.run exp d0 (inputs.take k))
      (inputs.get ⟨k, hk⟩).1 (inputs.get ⟨k, hk⟩).2.1 (inputs.get ⟨k, hk⟩).2.2 hmw hgt
    obtain ⟨hs1, hs2, hs3, _hs4⟩ := hstep
    refine ⟨hs1, ?_, ?_⟩
    · rw [hs2, hmem, hrpm, hfeed]
    · rw [hs3, hmem, hrpm, hfeed]
  · intro hall
    exact run_mon_invariant exp d0 (inputs.take k) hst hall
  · intro hk hall hgt hle
    rw [run_take_succ exp d0 inputs k hk]
    have hmon := run_mon_invariant exp d0 (inputs.take k) hst hall
    have h70 : ¬ 70 < (inputs.get ⟨k, hk⟩).2.1 := not_lt.mpr hle
    simp only [Detector.updateState, hmon]
    rw [if_neg h70, if_pos hgt]

theorem monitoring_warning_chatter_first_crossing_witness :
    (Detector.run expQ detMonitoring
        (([(0, 50, 1000), (5, 80, 1500)] : List (ℕ × ℚ × ℚ)).take 1)).currentState
      ≠ DState.CHATTER
    ∧ (Detector.run expQ detMonitoring
        (([(0, 50, 1000), (5, 80, 1500)] : List (ℕ × ℚ × ℚ)).take 2)).currentState
      = DState.CHATTER := by
  have h := monitoring_warning_chatter_first_crossing expQ detMonitoring
    [(0, 50, 1000), (5, 80, 1500)] 1
    (by norm_num [List.chain'_cons]) rfl
  exact ⟨(h.1 (by norm_num)).1, (h.2.1 (by norm_num) (by norm_num) (by norm_num)).1⟩

/-- C5: the fused chatter score of `AdvancedDSP.analyze` equals
`(Σ feature·weight) / (Σ applied weights) · 100`, with harmonic strength
weighted 30, spectral narrowness 20, frequency stability 15 and the
crest-factor score 10 unconditionally, the stability-lobe match weighted 20
only when `toothPassFreq > 10`, and the stall-oscillation score weighted 25
only when stall data exists; excluded features contribute to neither the
numerator nor the denominator. -/
theorem fusedChatterScore_weighted_average (harmonicStrength spectralNarrowness
    freqStability stabilityLobeMatch stallGuardScore crestScore
    toothPassFreq : ℚ) (hasData : Bool) :
    AdvancedDSP.fusedChatterScore harmonicStrength spectralNarrowness
        freqStability stabilityLobeMatch stallGuardScore crestScore
        toothPassFreq hasData
      = (harmonicStrength * 30 + spectralNarrowness * 20 + freqStability * 15
          + (if 10 < toothPassFreq then stabilityLobeMatch * 20 else 0)
          + (if hasData then stallGuardScore * 25 else 0)
          + crestScore * 10)
        / (30 + 20 + 15 + (if 10 < toothPassFreq then (20 : ℚ) else 0)
          + (if hasData then (25 : ℚ) else 0) + 10) * 100 := by
  by_cases ht : 10 < toothPassFreq <;> cases hasData
  all_goals
    simp only [AdvancedDSP.fusedChatterScore, ht, ite_true, ite_false, if_true,
      if_false, Bool.false_eq_true, Bool.true_eq_false, eq_self_iff_true]
  all_goals rw [if_pos (by norm_num)]
  all_goals ring

theorem fold_peak_lt (mags : List ℚ) (l : List ℕ) (p : ℚ × ℕ) (c : ℚ)
    (hp : p.1 < c) (hall : ∀ i ∈ l, mags.getD i 0 < c) :
    (l.foldl (fun q i => if mags.getD i 0 > q.1 then (mags.getD i 0, i) else q) p).1
      < c := by
  induction l generalizing p with
  | nil => exact hp
  | cons j js ih =>
      rw [List.foldl_cons]
      apply ih
      · by_cases hj : mags.getD j 0 > p.1
        · rw [if_pos hj]
          exact hall j (List.mem_cons_self j js)
        · rw [if_neg hj]
          exact hp
      · exact fun u hu => hall u (List.mem_cons_of_mem j hu)

/-- C10: when every bin the harmonic detector searches (from
`(int)(500/binWidth)` up to `min(size/2, (int)(8000/binWidth))`, i.e. the
500-8000 Hz window) has absolute magnitude below 100, `HarmonicDetector.analyze`
returns harmonic strength 0 and fundamental 0, so the cycle's
`AdvancedResult.dominantFreq` is 0 — regardless of any harmonic pattern among
those sub-floor bins. -/
theorem harmonic_below_floor_zero (mags : List ℚ) (size : ℕ) (binWidth : ℚ)
    (hall : ∀ i ∈ HarmonicDetector.searchBins size binWidth,
      |mags.getD i 0| < 100) :
    HarmonicDetector.analyze mags size binWidth = (0, 0)
    ∧ AdvancedDSP.dominantFreqOf mags size binWidth = 0 := by
  have hpk : (HarmonicDetector.findPeak mags size binWidth).1 < 100 := by
    rw [HarmonicDetector.findPeak]
    exact fold_peak_lt mags _ (0, 0) 100 (by norm_num)
      (fun i hi => lt_of_le_of_lt (le_abs_self _) (hall i hi))
  constructor
  · simp only [HarmonicDetector.analyze]
    rw [if_pos hpk]
  · simp only [AdvancedDSP.dominantFreqOf, HarmonicDetector.analyze]
    rw [if_pos hpk]

theorem harmonic_below_floor_zero_witness :
    HarmonicDetector.analyze [] 64 100 = (0, 0)
    ∧ AdvancedDSP.dominantFreqOf [] 64 100 = 0 :=
  harmonic_below_floor_zero [] 64 100 (by
    intro i _
    norm_num [List.getD_nil])
